import Mathlib

/-!
Shallow embedding of the MemoryCacheAI memory-orchestration core.

The Go source is embedded as pure Lean functions over an explicit `World`
state (the contents of the two backing stores) and an `Env` record that
fixes the outcome of each remote call an operation makes (the remote
services are outside the repository; their request/response contracts are
the ones in spec.md section 6).

  * `models/memory.go`      -> the data structures below
  * `clients/qstash.go` (RedisClient part, the file also holds the
    QStash client) -> `getSessionR`, `saveSessionR`, `deleteSessionR`,
    `updateSessionActivityR`, `setSessionContextR`
  * `clients/vector.go`     -> `upsertMemoryC`, `collectResults`,
    `clientQueryMemories`, `clientDeleteMemory`, `clientDeleteExpiredMemories`
  * `services/memory.go`    -> `serviceSaveMemory`, `serviceQueryMemory`,
    `serviceGetSession`, `serviceDeleteSession`, `serviceSetSessionContext`,
    `serviceCleanupExpiredMemories`, `serviceDeleteMemory`

Machine conventions: Go `time.Time` is a unix-seconds `Int`; float64
similarity scores and embedding coordinates are `Rat` (every literal the
code compares against, 0.5 etc., is exact in `Rat`); Go `int` is `Int`;
`map[string]interface{}` is an association list over a JSON-ish value
type `MetaVal`.
-/

/-- A JSON-ish metadata / context value (`interface{}` holding a string or
a number in the Go source; numbers are unix seconds or ttl seconds). -/
inductive MetaVal where
  | s (v : String)
  | i (v : Int)
deriving DecidableEq, Repr

/-- Go errors as produced by `fmt.Errorf`: a leaf message or a message
wrapping a cause (`%w`). -/
inductive GoError where
  | mk (msg : String)
  | wrap (msg : String) (cause : GoError)
deriving DecidableEq, Repr

/-- Association-list lookup: first binding of the key (Go maps have unique
keys, Redis keys are unique). -/
def alookup {α : Type} : List (String × α) → String → Option α
  | [], _ => none
  | (k, v) :: rest, key => if k = key then some v else alookup rest key

/-- Association-list insert-or-overwrite (`m[k] = v` on a Go map,
`SET`/`SETEX` on a Redis key): replaces the first binding of the key,
else appends. -/
def aset {α : Type} : List (String × α) → String → α → List (String × α)
  | [], key, v => [(key, v)]
  | (k, w) :: rest, key, v =>
      if k = key then (key, v) :: rest else (k, w) :: aset rest key v

/-- Association-list delete (`DEL key`): removes every binding of the key. -/
def aerase {α : Type} (m : List (String × α)) (key : String) : List (String × α) :=
  m.filter (fun kv => !(kv.1 == key))

/-- `models.Message`. -/
structure Message where
  id : String
  role : String
  content : String
  timestamp : Int
deriving DecidableEq, Repr

/-- `models.SessionData`. -/
structure SessionData where
  userID : String
  sessionID : String
  messages : List Message
  context : List (String × MetaVal)
  lastActivity : Int
  createdAt : Int
deriving DecidableEq, Repr

/-- `models.MemoryEntry`. -/
structure MemoryEntry where
  id : String
  userID : String
  content : String
  embedding : List Rat
  metadata : List (String × MetaVal)
  timestamp : Int
  ttl : Int
deriving DecidableEq, Repr

/-- `models.SaveMemoryRequest`. -/
structure SaveMemoryRequest where
  userID : String
  sessionID : String
  content : String
  role : String
deriving DecidableEq, Repr

/-- `models.QueryMemoryRequest`. -/
structure QueryMemoryRequest where
  userID : String
  query : String
  limit : Int
  minScore : Rat
deriving DecidableEq, Repr

/-- `models.MemoryResult`. In `QueryMemories` the Go code never fills the
top-level `ID` field (the match id goes into the metadata map), so the
embedding keeps the zero value there implicitly by omitting the field. -/
structure MemoryResult where
  content : String
  score : Rat
  metadata : List (String × MetaVal)
  timestamp : Int
deriving DecidableEq, Repr

/-- `models.QueryMemoryResponse` (`Total` is `len(Results)` at the single
construction site). -/
structure QueryMemoryResponse where
  results : List MemoryResult
  total : Nat
deriving DecidableEq, Repr

/-- One vector stored in the remote vector database: id, vector and the
flattened metadata written by `UpsertMemory`. -/
structure StoredVec where
  id : String
  vec : List Rat
  metadata : List (String × MetaVal)
deriving DecidableEq, Repr

/-- `clients.QueryMatch`: one ranked match in a vector-store query
response. -/
structure QueryMatch where
  id : String
  score : Rat
  metadata : List (String × MetaVal)
deriving DecidableEq, Repr

/-- `clients.QueryRequest`. The Go filter string
`fmt.Sprintf` of a user-id equality predicate is carried as the
structured `filterUserID` (the remote store treats it as an equality
predicate on the `user_id` metadata field, spec section 6). -/
structure QueryReq where
  vector : List Rat
  topK : Int
  includeMetadata : Bool
  includeVectors : Bool
  filterUserID : Option String
deriving DecidableEq, Repr

/-- The combined state of the two backing stores: the Redis session
records (key `session:<id>`, value plus the ttl seconds set by `SETEX`),
the Redis per-user session-id sets (key `user_sessions:<uid>`), and the
vector database contents. -/
structure World where
  redis : List (String × (SessionData × Nat))
  userSessions : List (String × List String)
  vector : List StoredVec
deriving DecidableEq, Repr

/-- Outcomes of the remote calls an operation makes: a `true` flag makes
that remote call fail; `embed` and `query` give the remote response for
an embedding-generation call / vector-store query call (the vector
store's ranking is opaque to the orchestrator, so the response list is
part of the environment). -/
structure Env where
  getSessionFail : Bool
  saveSessionFail : Bool
  delSessionFail : Bool
  upsertFail : Bool
  vdeleteFail : Bool
  queryAllFail : Bool
  embed : String → Except GoError (List Rat)
  query : QueryReq → Except GoError (List QueryMatch)

/-- An environment in which every remote call succeeds, embeddings are a
fixed one-coordinate vector and vector-store queries return no matches;
concrete base point for witnesses. -/
def envOK : Env where
  getSessionFail := false
  saveSessionFail := false
  delSessionFail := false
  upsertFail := false
  vdeleteFail := false
  queryAllFail := false
  embed := fun _ => .ok [1]
  query := fun _ => .ok []

/-- String field of a metadata map (`m[k].(string)` succeeding). -/
def metaStr (m : List (String × MetaVal)) (k : String) : Option String :=
  match alookup m k with
  | some (.s v) => some v
  | _ => none

/-- Numeric field of a metadata map (`m[k].(float64)` succeeding; JSON
numbers here are whole seconds). -/
def metaInt (m : List (String × MetaVal)) (k : String) : Option Int :=
  match alookup m k with
  | some (.i v) => some v
  | _ => none

/-- Member insertion into a Redis set (`SADD setKey member`). -/
def sadd (xs : List String) (x : String) : List String :=
  if x ∈ xs then xs else xs ++ [x]

/-- `RedisClient.GetSession`: `GET session:<id>`; a remote failure is an
error, a nil result is the distinct "session not found" error; otherwise
the stored record is unmarshalled (stored records are well formed). -/
def getSessionR (env : Env) (w : World) (sessionID : String) :
    Except GoError SessionData :=
  if env.getSessionFail then
    .error (.wrap "failed to get session" (.mk "redis request failed"))
  else
    match alookup w.redis ("session:" ++ sessionID) with
    | none => .error (.mk "session not found")
    | some (s, _) => .ok s

/-- `RedisClient.SaveSession`: `SETEX session:<id> 86400 <record>`, then
`SADD user_sessions:<uid> <id>` and `EXPIRE user_sessions:<uid> 86400`
(the set's own ttl is not part of the model; no claim reads it). A remote
failure fails the call. -/
def saveSessionR (env : Env) (w : World) (s : SessionData) :
    Except GoError World :=
  if env.saveSessionFail then
    .error (.wrap "failed to save session" (.mk "redis request failed"))
  else
    .ok { w with
          redis := aset w.redis ("session:" ++ s.sessionID) (s, 86400)
          userSessions :=
            aset w.userSessions ("user_sessions:" ++ s.userID)
              (sadd ((alookup w.userSessions ("user_sessions:" ++ s.userID)).getD []) s.sessionID) }

/-- `RedisClient.DeleteSession`: `DEL session:<id>`; deleting an absent
key is not an error (`DEL` returns a count). -/
def deleteSessionR (env : Env) (w : World) (sessionID : String) :
    Except GoError World :=
  if env.delSessionFail then
    .error (.wrap "failed to delete session" (.mk "redis request failed"))
  else
    .ok { w with redis := aerase w.redis ("session:" ++ sessionID) }

/-- `RedisClient.UpdateSessionActivity`: re-read the record, bump
`LastActivity`, save it back. -/
def updateSessionActivityR (env : Env) (w : World) (sessionID : String)
    (now : Int) : Except GoError World :=
  match getSessionR env w sessionID with
  | .error e => .error e
  | .ok s => saveSessionR env w { s with lastActivity := now }

/-- `RedisClient.SetSessionContext`: read the record (propagating any
error unchanged), overwrite each supplied context key, bump
`LastActivity`, save it back. -/
def setSessionContextR (env : Env) (w : World) (sessionID : String)
    (ctx : List (String × MetaVal)) (now : Int) :
    Except GoError World :=
  match getSessionR env w sessionID with
  | .error e => .error e
  | .ok s =>
      let s := { s with
                 context := ctx.foldl (fun m kv => aset m kv.1 kv.2) s.context
                 lastActivity := now }
      saveSessionR env w s

/-- The flattened metadata map `VectorClient.UpsertMemory` writes: the
base fields `user_id`, `content`, `timestamp` (unix seconds), `ttl`, then
every custom entry of the `MemoryEntry`'s own metadata map on top. -/
def upsertMetadata (e : MemoryEntry) : List (String × MetaVal) :=
  e.metadata.foldl (fun m kv => aset m kv.1 kv.2)
    [("user_id", .s e.userID), ("content", .s e.content),
     ("timestamp", .i e.timestamp), ("ttl", .i e.ttl)]

/-- Vector-store upsert (`UPSERT(id, vector, metadata)`, spec section 6):
replaces the entry with the same id, else appends. -/
def vupsert : List StoredVec → StoredVec → List StoredVec
  | [], sv => [sv]
  | x :: rest, sv => if x.id = sv.id then sv :: rest else x :: vupsert rest sv

/-- Vector-store delete (`DELETE(id)`, spec section 6): removes the entry
with the id; an absent id deletes nothing and is not an error. -/
def vdelete (vs : List StoredVec) (id : String) : List StoredVec :=
  vs.filter (fun sv => !(sv.id == id))

/-- `VectorClient.UpsertMemory`: flatten the metadata and `POST /upsert`. -/
def upsertMemoryC (env : Env) (w : World) (e : MemoryEntry) :
    Except GoError World :=
  if env.upsertFail then
    .error (.wrap "failed to upsert memory" (.mk "vector request failed"))
  else
    .ok { w with
          vector := vupsert w.vector
            { id := e.id, vec := e.embedding, metadata := upsertMetadata e } }

/-- The conversion `QueryMemories` applies to one surviving match: score
and metadata are copied, the match id is written into the metadata under
`id`, content and timestamp are recovered from the match metadata when
the type assertions succeed (zero values otherwise). -/
def convMatch (m : QueryMatch) : MemoryResult :=
  { score := m.score
    metadata := aset m.metadata "id" (.s m.id)
    content := (metaStr m.metadata "content").getD ""
    timestamp := (metaInt m.metadata "timestamp").getD 0 }

/-- The result-collection loop of `VectorClient.QueryMemories`: walk the
matches in the store's order, skip any match whose score is below
`minScore`, convert the rest. -/
def collectResults (minScore : Rat) : List QueryMatch → List MemoryResult
  | [] => []
  | m :: rest =>
      if m.score < minScore then collectResults minScore rest
      else convMatch m :: collectResults minScore rest

/-- `VectorClient.QueryMemories`: default the limit to 10 when ≤ 0, build
the query request (topK = limit, metadata included, vectors excluded,
filter = user-id equality), `POST /query`, then filter the response
matches by `minScore`. -/
def clientQueryMemories (env : Env) (userID : String) (qv : List Rat)
    (limit : Int) (minScore : Rat) : Except GoError (List MemoryResult) :=
  let limit := if limit ≤ 0 then 10 else limit
  let request : QueryReq :=
    { vector := qv, topK := limit, includeMetadata := true,
      includeVectors := false, filterUserID := some userID }
  match env.query request with
  | .error e => .error (.wrap "failed to query memories" e)
  | .ok ms => .ok (collectResults minScore ms)

/-- `VectorClient.DeleteMemory`: `POST /delete` for one id; the store
deletes the id if present and answers 2xx either way, so only a remote
failure is an error. -/
def clientDeleteMemory (env : Env) (w : World) (id : String) :
    Except GoError Unit × World :=
  if env.vdeleteFail then
    (.error (.wrap "failed to delete memory" (.mk "vector request failed")), w)
  else
    (.ok (), { w with vector := vdelete w.vector id })

/-- The adapter calls a `SaveMemory` run issues, in order (used to state
that a failing step prevents the later calls from being made at all). -/
inductive Call where
  | getSession
  | saveSession
  | embed
  | upsert
deriving DecidableEq, Repr

/-- The first half of `MemoryService.SaveMemory`: build the Message
(`messageID` stands for the fresh uuid, `now` for `time.Now()`), read the
session falling back to a fresh record on any read error, append the
message and bump the activity timestamp. This is the record the Redis
write then persists. -/
def savedSession (env : Env) (w : World) (req : SaveMemoryRequest)
    (now : Int) (messageID : String) : SessionData :=
  let message : Message :=
    { id := messageID, role := req.role, content := req.content, timestamp := now }
  let session : SessionData :=
    match getSessionR env w req.sessionID with
    | .ok s => s
    | .error _ =>
        { userID := req.userID, sessionID := req.sessionID, messages := [],
          context := [], lastActivity := now, createdAt := now }
  { session with
    messages := session.messages ++ [message]
    lastActivity := now }

/-- `MemoryService.SaveMemory` (`services/memory.go`): persist the
updated session record (`savedSession`), then generate the embedding,
build the MemoryEntry (same id as the message, session/role metadata,
30-day ttl) and upsert it. Returns the Go result, the world after the
calls that ran, and the trace of adapter calls issued. -/
def serviceSaveMemory (env : Env) (w : World) (req : SaveMemoryRequest)
    (now : Int) (messageID : String) :
    Except GoError Unit × World × List Call :=
  let session := savedSession env w req now messageID
  match saveSessionR env w session with
  | .error e =>
      (.error (.wrap "failed to save session" e), w, [.getSession, .saveSession])
  | .ok w1 =>
      match env.embed req.content with
      | .error e =>
          (.error (.wrap "failed to generate embedding" e), w1,
           [.getSession, .saveSession, .embed])
      | .ok emb =>
          let entry : MemoryEntry :=
            { id := messageID, userID := req.userID, content := req.content,
              embedding := emb,
              metadata := [("session_id", .s req.sessionID), ("role", .s req.role)],
              timestamp := now, ttl := 30 * 24 * 60 * 60 }
          match upsertMemoryC env w1 entry with
          | .error e =>
              (.error (.wrap "failed to save vector memory" e), w1,
               [.getSession, .saveSession, .embed, .upsert])
          | .ok w2 =>
              (.ok (), w2, [.getSession, .saveSession, .embed, .upsert])

/-- `MemoryService.QueryMemory`: embed the query text, default the limit
to 10 when ≤ 0 and the minimum score to 0.5 when ≤ 0, query the vector
store, and wrap the surviving results with their count. -/
def serviceQueryMemory (env : Env) (req : QueryMemoryRequest) :
    Except GoError QueryMemoryResponse :=
  match env.embed req.query with
  | .error e => .error (.wrap "failed to generate query embedding" e)
  | .ok qv =>
      let limit := if req.limit ≤ 0 then 10 else req.limit
      let minScore := if req.minScore ≤ 0 then 1/2 else req.minScore
      match clientQueryMemories env req.userID qv limit minScore with
      | .error e => .error (.wrap "failed to query memories" e)
      | .ok results => .ok { results := results, total := results.length }

/-- `MemoryService.GetSession`: fetch, then best-effort refresh of the
activity timestamp — a refresh failure is logged and the fetched record
is still returned. -/
def serviceGetSession (env : Env) (w : World) (sessionID : String)
    (now : Int) : Except GoError SessionData × World :=
  match getSessionR env w sessionID with
  | .error e => (.error (.wrap "failed to get session" e), w)
  | .ok s =>
      match updateSessionActivityR env w sessionID now with
      | .error _ => (.ok s, w)
      | .ok w1 => (.ok s, w1)

/-- `MemoryService.DeleteSession`: when `deleteMemories` is set the
session must first be readable (its user id would be needed), then the
code only prints that memory deletion by session is not implemented —
no vector-store call is made on any path; finally the Redis record is
deleted. -/
def serviceDeleteSession (env : Env) (w : World) (sessionID : String)
    (deleteMemories : Bool) : Except GoError Unit × World :=
  let del : Except GoError Unit × World :=
    match deleteSessionR env w sessionID with
    | .error e => (.error (.wrap "failed to delete session from Redis" e), w)
    | .ok w1 => (.ok (), w1)
  if deleteMemories then
    match getSessionR env w sessionID with
    | .error e => (.error (.wrap "failed to get session" e), w)
    | .ok _ => del
  else del

/-- `MemoryService.SetSessionContext`: direct delegation to the Redis
client. -/
def serviceSetSessionContext (env : Env) (w : World) (sessionID : String)
    (ctx : List (String × MetaVal)) (now : Int) :
    Except GoError Unit × World :=
  match setSessionContextR env w sessionID ctx now with
  | .error e => (.error e, w)
  | .ok w1 => (.ok (), w1)

/-- Modelled from the spec: the Vector Store's `QUERY` contract (spec
sections 4.4 and 6) — the store itself is a remote service, not code of
this repository — answers the unfiltered cleanup query by scanning the
whole store bounded by `topK`, returning each entry with its metadata. -/
def storeScan (w : World) (topK : Nat) : List QueryMatch :=
  (w.vector.take topK).map (fun sv => { id := sv.id, score := 0, metadata := sv.metadata })

/-- The per-match test of the expiration loop in
`VectorClient.DeleteExpiredMemories`: both type assertions on the
metadata's `timestamp` and `ttl` succeed and `now > timestamp + ttl`. -/
def expiredMeta (now : Int) (md : List (String × MetaVal)) : Bool :=
  match metaInt md "timestamp", metaInt md "ttl" with
  | some t, some l => decide (now > t + l)
  | _, _ => false

/-- The expiration loop of `VectorClient.DeleteExpiredMemories`: for each
match whose metadata carries numeric `timestamp` and `ttl`, delete it
when `now > timestamp + ttl`; a failed delete is logged and the loop
continues. -/
def sweepExpired (env : Env) (now : Int) :
    List QueryMatch → World → World
  | [], w => w
  | m :: rest, w =>
      if expiredMeta now m.metadata then
        sweepExpired env now rest (clientDeleteMemory env w m.id).2
      else sweepExpired env now rest w

/-- `VectorClient.DeleteExpiredMemories`: query the whole store with a
zero vector and `topK = 10000` (the dimension fetch only shapes the zero
vector and cannot change which entries come back), then run the
expiration loop over the response; the loop itself never fails. -/
def clientDeleteExpiredMemories (env : Env) (w : World) (now : Int) :
    Except GoError Unit × World :=
  if env.queryAllFail then
    (.error (.wrap "failed to query memories for cleanup" (.mk "vector request failed")), w)
  else
    (.ok (), sweepExpired env now (storeScan w 10000) w)

/-- `MemoryService.CleanupExpiredMemories`: direct delegation. -/
def serviceCleanupExpiredMemories (env : Env) (w : World) (now : Int) :
    Except GoError Unit × World :=
  clientDeleteExpiredMemories env w now

/-- `MemoryService.DeleteMemory`: verify ownership by querying up to 100
of the user's memories with a placeholder query and min score 0, look
for the id in the results' metadata, report the not-found error when it
is absent, else delete the id from the vector store. -/
def serviceDeleteMemory (env : Env) (w : World) (memoryID : String)
    (userID : String) : Except GoError Unit × World :=
  let request : QueryMemoryRequest :=
    { userID := userID, query := "verify memory ownership", limit := 100, minScore := 0 }
  match serviceQueryMemory env request with
  | .error e => (.error (.wrap "failed to verify memory ownership" e), w)
  | .ok response =>
      let memoryFound := response.results.any (fun r =>
        match metaStr r.metadata "id" with
        | some idv => idv == memoryID
        | none => false)
      if memoryFound then
        match clientDeleteMemory env w memoryID with
        | (.error e, w1) => (.error (.wrap "failed to delete memory" e), w1)
        | (.ok _, w1) => (.ok (), w1)
      else
        (.error (.mk "memory not found or does not belong to the specified user"), w)

/-- Whether a Go result is an error. -/
def isErr {α : Type} : Except GoError α → Bool
  | .error _ => true
  | .ok _ => false

/-- First stored vector with the given id. -/
def svFind (vs : List StoredVec) (id : String) : Option StoredVec :=
  vs.find? (fun sv => sv.id == id)

/-- The query request `QueryMemories` sends for a user, embedding and
requested limit (the limit defaulted to 10 when ≤ 0). -/
def builtQueryReq (userID : String) (qv : List Rat) (limit : Int) : QueryReq :=
  { vector := qv, topK := if limit ≤ 0 then 10 else limit,
    includeMetadata := true, includeVectors := false,
    filterUserID := some userID }

/-- The spec's description of the Query result set (spec section 4.2):
exactly the store's matches whose score is at least the effective
minimum, in the store's order, each converted to a `MemoryResult`. -/
def specKeptResults (minScore : Rat) (ms : List QueryMatch) : List MemoryResult :=
  (ms.filter (fun m => decide (minScore ≤ m.score))).map convMatch

/-- The loop condition of `DeleteExpiredMemories` as a predicate on a
stored vector: numeric `timestamp` and `ttl` present and
`now > timestamp + ttl`. -/
def expiredB (now : Int) (sv : StoredVec) : Bool :=
  expiredMeta now sv.metadata

/-- Concrete fixtures for the witness theorems. -/
def req0 : SaveMemoryRequest :=
  { userID := "alice", sessionID := "s1", content := "hello", role := "user" }

def sess0 : SessionData :=
  { userID := "alice", sessionID := "s1", messages := [],
    context := [("lang", .s "en")], lastActivity := 0, createdAt := 0 }

def w0 : World := { redis := [], userSessions := [], vector := [] }

def w1 : World :=
  { redis := [("session:s1", (sess0, 86400))],
    userSessions := [("user_sessions:alice", ["s1"])], vector := [] }

def sv1 : StoredVec :=
  { id := "m1", vec := [1], metadata := [("timestamp", .i 0), ("ttl", .i 10)] }

def sv2 : StoredVec :=
  { id := "m2", vec := [1], metadata := [("timestamp", .i 0), ("ttl", .i 100)] }

def wv : World := { redis := [], userSessions := [], vector := [sv1, sv2] }

def envSaveFail : Env := { envOK with saveSessionFail := true }

def envUpsertFail : Env := { envOK with upsertFail := true }

def qm1 : QueryMatch :=
  { id := "m1", score := 9/10,
    metadata := [("content", .s "I have a cat"), ("timestamp", .i 3)] }

def qm2 : QueryMatch := { id := "m2", score := 1/10, metadata := [] }

def envQ : Env := { envOK with query := fun _ => .ok [qm1, qm2] }

def reqQ : QueryMemoryRequest :=
  { userID := "alice", query := "pet", limit := 5, minScore := 1/5 }

def envEmbedFail : Env :=
  { envOK with embed := fun _ => .error (.mk "embedding service down") }

def envQlow : Env := { envOK with query := fun _ => .ok [qm2] }

def envQone : Env := { envOK with query := fun _ => .ok [qm1] }

def u0 : List (String × MetaVal) := [("topic", .s "cats")]

theorem alookup_aset_self {α : Type} (m : List (String × α)) (k : String) (v : α) :
    alookup (aset m k v) k = some v := by
  induction m with
  | nil => simp [aset, alookup]
  | cons kv rest ih =>
      obtain ⟨k1, v1⟩ := kv
      by_cases h : k1 = k
      · simp [aset, h, alookup]
      · simp [aset, h, alookup, ih]

theorem alookup_aset_ne {α : Type} (m : List (String × α)) (k k2 : String) (v : α)
    (h : k2 ≠ k) : alookup (aset m k v) k2 = alookup m k2 := by
  induction m with
  | nil => simp [aset, alookup, Ne.symm h]
  | cons kv rest ih =>
      obtain ⟨k1, v1⟩ := kv
      by_cases h1 : k1 = k
      · subst h1
        simp [aset, alookup, Ne.symm h]
      · simp [aset, h1, alookup, ih]

theorem alookup_eq_none_of_not_mem {α : Type} (m : List (String × α)) (k : String)
    (h : k ∉ m.map Prod.fst) : alookup m k = none := by
  induction m with
  | nil => simp [alookup]
  | cons kv rest ih =>
      obtain ⟨k1, v1⟩ := kv
      simp only [List.map_cons, List.mem_cons] at h
      push_neg at h
      simp [alookup, Ne.symm h.1, ih h.2]

theorem alookup_foldl_aset_of_none {α : Type} (u : List (String × α)) (k : String)
    (h : alookup u k = none) (m : List (String × α)) :
    alookup (u.foldl (fun acc kv => aset acc kv.1 kv.2) m) k = alookup m k := by
  induction u generalizing m with
  | nil => simp
  | cons kv rest ih =>
      obtain ⟨k1, v1⟩ := kv
      simp only [alookup] at h
      by_cases h1 : k1 = k
      · simp [h1] at h
      · simp only [List.foldl_cons]
        rw [ih (by simpa [h1] using h), alookup_aset_ne _ _ _ _ (Ne.symm h1)]

theorem alookup_foldl_aset_of_some {α : Type} (u : List (String × α)) (k : String) (v : α)
    (hnodup : (u.map Prod.fst).Nodup) (h : alookup u k = some v) (m : List (String × α)) :
    alookup (u.foldl (fun acc kv => aset acc kv.1 kv.2) m) k = some v := by
  induction u generalizing m with
  | nil => simp [alookup] at h
  | cons kv rest ih =>
      obtain ⟨k1, v1⟩ := kv
      simp only [List.map_cons, List.nodup_cons] at hnodup
      simp only [alookup] at h
      by_cases h1 : k1 = k
      · subst h1
        simp only [if_pos rfl] at h
        cases h
        simp only [List.foldl_cons]
        rw [alookup_foldl_aset_of_none rest _
              (alookup_eq_none_of_not_mem _ _ hnodup.1), alookup_aset_self]
      · simp only [if_neg h1] at h
        simp only [List.foldl_cons]
        exact ih hnodup.2 h _

theorem aerase_of_none {α : Type} (m : List (String × α)) (k : String)
    (h : alookup m k = none) : aerase m k = m := by
  induction m with
  | nil => rfl
  | cons kv rest ih =>
      obtain ⟨k1, v1⟩ := kv
      simp only [alookup] at h
      by_cases h1 : k1 = k
      · simp [h1] at h
      · have hrest : alookup rest k = none := by simpa [h1] using h
        have := ih hrest
        simp only [aerase, List.filter_cons] at this ⊢
        simp [h1, this]

theorem svFind_vupsert_self (vs : List StoredVec) (sv : StoredVec) :
    svFind (vupsert vs sv) sv.id = some sv := by
  induction vs with
  | nil => simp [vupsert, svFind, List.find?]
  | cons x rest ih =>
      by_cases h : x.id = sv.id
      · simp [vupsert, h, svFind, List.find?]
      · simp only [vupsert, if_neg h, svFind] at ih ⊢
        rw [List.find?_cons_of_neg _ (by simp [h])]
        exact ih

theorem collectResults_eq_spec (minScore : Rat) (ms : List QueryMatch) :
    collectResults minScore ms = specKeptResults minScore ms := by
  induction ms with
  | nil => rfl
  | cons m rest ih =>
      by_cases h : m.score < minScore
      · simp [collectResults, specKeptResults, h, not_le.mpr h, List.filter_cons] at ih ⊢
        simpa [specKeptResults] using ih
      · simp [collectResults, specKeptResults, h, not_lt.mp h, List.filter_cons] at ih ⊢
        simpa [specKeptResults] using ih

theorem specKeptResults_score (minScore : Rat) (ms : List QueryMatch) :
    ∀ r ∈ specKeptResults minScore ms, minScore ≤ r.score := by
  intro r hr
  simp only [specKeptResults, List.mem_map, List.mem_filter] at hr
  obtain ⟨m, ⟨_, hkeep⟩, hconv⟩ := hr
  have : minScore ≤ m.score := by simpa using hkeep
  simpa [← hconv, convMatch] using this

theorem vdelete_append_middle (front rest : List StoredVec) (sv : StoredVec)
    (hf : ∀ x ∈ front, x.id ≠ sv.id) (hr : ∀ x ∈ rest, x.id ≠ sv.id) :
    vdelete (front ++ sv :: rest) sv.id = front ++ rest := by
  simp only [vdelete, List.filter_append, List.filter_cons]
  rw [List.filter_eq_self.mpr (by intro x hx; simpa using hf x hx),
      List.filter_eq_self.mpr (by intro x hx; simpa using hr x hx)]
  simp

theorem sweepExpired_scan (env : Env) (hd : env.vdeleteFail = false) (now : Int) :
    ∀ (vs front : List StoredVec) (w : World),
      w.vector = front ++ vs →
      (∀ x ∈ front, x.id ∉ vs.map StoredVec.id) →
      (vs.map StoredVec.id).Nodup →
      (sweepExpired env now
          (vs.map (fun sv =>
            ({ id := sv.id, score := 0, metadata := sv.metadata } : QueryMatch))) w).vector
        = front ++ vs.filter (fun sv => !(expiredB now sv)) := by
  intro vs
  induction vs with
  | nil =>
      intro front w hw _ _
      simpa [sweepExpired] using hw
  | cons sv rest ih =>
      intro front w hw hdisj hnodup
      simp only [List.map_cons, List.nodup_cons] at hnodup
      simp only [List.map_cons, sweepExpired]
      by_cases hexp : expiredMeta now sv.metadata
      · rw [if_pos hexp]
        have hdel : (clientDeleteMemory env w sv.id).2
            = { w with vector := front ++ rest } := by
          simp only [clientDeleteMemory, hd, Bool.false_eq_true, if_neg]
          rw [hw, vdelete_append_middle front rest sv
                (fun x hx hm => hdisj x hx (by simp [hm]))
                (fun x hx hm => hnodup.1 (by rw [← hm]; exact List.mem_map_of_mem _ hx))]
          simp
        rw [hdel, ih front _ rfl
              (fun x hx hm => hdisj x hx (List.mem_cons_of_mem _ hm))
              hnodup.2]
        simp [List.filter_cons, expiredB, hexp]
      · rw [if_neg hexp]
        rw [ih (front ++ [sv]) w (by simp [hw])
              (by intro x hx
                  rcases List.mem_append.mp hx with hx1 | hx1
                  · exact fun hm => hdisj x hx1 (by simp [hm])
                  · simp only [List.mem_singleton] at hx1
                    subst hx1
                    exact hnodup.1)
              hnodup.2]
        simp [List.filter_cons, expiredB, hexp]

theorem expiredMeta_of_some (now t l : Int) (md : List (String × MetaVal))
    (ht : metaInt md "timestamp" = some t) (hl : metaInt md "ttl" = some l) :
    expiredMeta now md = decide (now > t + l) := by
  unfold expiredMeta
  rw [ht, hl]

theorem metaStr_aset_self (m : List (String × MetaVal)) (k v : String) :
    metaStr (aset m k (.s v)) k = some v := by
  simp [metaStr, alookup_aset_self]


theorem getSessionR_ok_elim (env : Env) (w : World) (sid : String) (s : SessionData)
    (h : getSessionR env w sid = .ok s) :
    env.getSessionFail = false ∧
      ∃ ttl, alookup w.redis ("session:" ++ sid) = some (s, ttl) := by
  by_cases hf : env.getSessionFail
  · simp [getSessionR, hf] at h
  · refine ⟨by simpa using hf, ?_⟩
    cases hl : alookup w.redis ("session:" ++ sid) with
    | none => simp [getSessionR, hf, hl] at h
    | some p =>
        obtain ⟨s2, ttl⟩ := p
        simp [getSessionR, hf, hl] at h
        exact ⟨ttl, by rw [h]⟩

theorem savedSession_sessionID (env : Env) (w : World) (req : SaveMemoryRequest)
    (now : Int) (mid : String)
    (hwf : ∀ s ttl, alookup w.redis ("session:" ++ req.sessionID) = some (s, ttl) →
      s.sessionID = req.sessionID) :
    (savedSession env w req now mid).sessionID = req.sessionID := by
  cases hget : getSessionR env w req.sessionID with
  | ok s =>
      obtain ⟨-, ttl, hl⟩ := getSessionR_ok_elim env w req.sessionID s hget
      simpa [savedSession, hget] using hwf s ttl hl
  | error e => simp [savedSession, hget]

theorem savedSession_getLast (env : Env) (w : World) (req : SaveMemoryRequest)
    (now : Int) (mid : String) :
    (savedSession env w req now mid).messages.getLast? =
      some { id := mid, role := req.role, content := req.content, timestamp := now } := by
  simp [savedSession]

theorem serviceSaveMemory_redis (env : Env) (w : World) (req : SaveMemoryRequest)
    (now : Int) (mid : String) (h1 : env.saveSessionFail = false) :
    (serviceSaveMemory env w req now mid).2.1.redis
      = aset w.redis ("session:" ++ (savedSession env w req now mid).sessionID)
          (savedSession env w req now mid, 86400) := by
  cases hemb : env.embed req.content with
  | error e => simp [serviceSaveMemory, saveSessionR, h1, hemb]
  | ok emb =>
      by_cases hup : env.upsertFail
      · simp [serviceSaveMemory, saveSessionR, h1, hemb, upsertMemoryC, hup]
      · simp [serviceSaveMemory, saveSessionR, h1, hemb, upsertMemoryC, hup]

theorem serviceSaveMemory_err_late (env : Env) (w : World) (req : SaveMemoryRequest)
    (now : Int) (mid : String) (h1 : env.saveSessionFail = false)
    (h2 : isErr (env.embed req.content) = true ∨ env.upsertFail = true) :
    isErr (serviceSaveMemory env w req now mid).1 = true := by
  cases hemb : env.embed req.content with
  | error e => simp [serviceSaveMemory, saveSessionR, h1, hemb, isErr]
  | ok emb =>
      have hup : env.upsertFail = true := by
        rcases h2 with h2 | h2
        · rw [hemb] at h2
          simp [isErr] at h2
        · exact h2
      simp [serviceSaveMemory, saveSessionR, h1, hemb, upsertMemoryC, hup, isErr]

/-- C1: if persisting the updated session record fails, the whole Save
operation fails with an error, no embedding is generated and nothing is
written to the vector store; if embedding generation or the vector-store
write fails after the session record was persisted, Save returns an
error but the session write is not rolled back — the appended message
remains in the stored session. (`hwf`: stored session records carry the
session id they are keyed under, which every write path of this system
maintains.) -/
theorem save_memory_failure_atomicity (env : Env) (w : World)
    (req : SaveMemoryRequest) (now : Int) (mid : String)
    (hwf : ∀ s ttl, alookup w.redis ("session:" ++ req.sessionID) = some (s, ttl) →
      s.sessionID = req.sessionID) :
    (env.saveSessionFail = true →
      isErr (serviceSaveMemory env w req now mid).1 = true ∧
      Call.embed ∉ (serviceSaveMemory env w req now mid).2.2 ∧
      Call.upsert ∉ (serviceSaveMemory env w req now mid).2.2 ∧
      (serviceSaveMemory env w req now mid).2.1.vector = w.vector) ∧
    (env.saveSessionFail = false →
      (isErr (env.embed req.content) = true ∨ env.upsertFail = true) →
      isErr (serviceSaveMemory env w req now mid).1 = true ∧
      ∃ s ttl, alookup (serviceSaveMemory env w req now mid).2.1.redis
          ("session:" ++ req.sessionID) = some (s, ttl) ∧
        s.messages.getLast? = some
          { id := mid, role := req.role, content := req.content, timestamp := now }) := by
  constructor
  · intro h
    simp [serviceSaveMemory, saveSessionR, h, isErr]
  · intro h1 h2
    refine ⟨serviceSaveMemory_err_late env w req now mid h1 h2,
      savedSession env w req now mid, 86400, ?_,
      savedSession_getLast env w req now mid⟩
    rw [serviceSaveMemory_redis env w req now mid h1,
        savedSession_sessionID env w req now mid hwf]
    exact alookup_aset_self _ _ _

/-- Witness for C1: applies the theorem to a failing session write and to
a failing vector write over the empty world. -/
theorem save_memory_failure_atomicity_witness :
    (isErr (serviceSaveMemory envSaveFail w0 req0 5 "m1").1 = true ∧
     Call.embed ∉ (serviceSaveMemory envSaveFail w0 req0 5 "m1").2.2 ∧
     Call.upsert ∉ (serviceSaveMemory envSaveFail w0 req0 5 "m1").2.2 ∧
     (serviceSaveMemory envSaveFail w0 req0 5 "m1").2.1.vector = w0.vector) ∧
    (isErr (serviceSaveMemory envUpsertFail w0 req0 5 "m1").1 = true ∧
     ∃ s ttl, alookup (serviceSaveMemory envUpsertFail w0 req0 5 "m1").2.1.redis
         ("session:" ++ req0.sessionID) = some (s, ttl) ∧
       s.messages.getLast? = some
         { id := "m1", role := req0.role, content := req0.content, timestamp := 5 }) :=
  ⟨(save_memory_failure_atomicity envSaveFail w0 req0 5 "m1"
      (fun s ttl h => by simp [w0, alookup] at h)).1 rfl,
   (save_memory_failure_atomicity envUpsertFail w0 req0 5 "m1"
      (fun s ttl h => by simp [w0, alookup] at h)).2 rfl (Or.inr rfl)⟩

theorem serviceQueryMemory_ok_eq (env : Env) (req : QueryMemoryRequest)
    (qv : List Rat) (ms : List QueryMatch)
    (he : env.embed req.query = .ok qv)
    (hq : env.query (builtQueryReq req.userID qv req.limit) = .ok ms) :
    serviceQueryMemory env req =
      .ok { results := specKeptResults (if req.minScore ≤ 0 then 1/2 else req.minScore) ms,
            total := (specKeptResults (if req.minScore ≤ 0 then 1/2 else req.minScore) ms).length } := by
  have hreq : builtQueryReq req.userID qv (if req.limit ≤ 0 then 10 else req.limit)
      = builtQueryReq req.userID qv req.limit := by
    unfold builtQueryReq
    by_cases h : req.limit ≤ 0 <;> simp [h]
  have hq2 := hq
  rw [← hreq] at hq2
  simp only [builtQueryReq] at hq2
  simp only [serviceQueryMemory, he, clientQueryMemories, hq2,
    collectResults_eq_spec]

/-- C2: with the effective limit (10 when the requested limit is ≤ 0)
used as the store query's topK and the effective minimum score (0.5 when
the requested minimum is ≤ 0), the returned results are exactly the
store's ranked matches with score at least the effective minimum, in the
store's order, with no re-ranking and no duplication; hence every
returned result's score is at least the effective minimum. -/
theorem query_memory_exact (env : Env) (req : QueryMemoryRequest)
    (qv : List Rat) (ms : List QueryMatch)
    (he : env.embed req.query = .ok qv)
    (hq : env.query (builtQueryReq req.userID qv req.limit) = .ok ms) :
    serviceQueryMemory env req =
      .ok { results := specKeptResults (if req.minScore ≤ 0 then 1/2 else req.minScore) ms,
            total := (specKeptResults (if req.minScore ≤ 0 then 1/2 else req.minScore) ms).length } ∧
    ∀ r ∈ specKeptResults (if req.minScore ≤ 0 then 1/2 else req.minScore) ms,
      (if req.minScore ≤ 0 then 1/2 else req.minScore) ≤ r.score :=
  ⟨serviceQueryMemory_ok_eq env req qv ms he hq, specKeptResults_score _ _⟩

/-- Witness for C2: a two-match store response, one above and one below
the requested minimum score. -/
theorem query_memory_exact_witness :
    serviceQueryMemory envQ reqQ =
      .ok { results := specKeptResults (if reqQ.minScore ≤ 0 then 1/2 else reqQ.minScore) [qm1, qm2],
            total := (specKeptResults (if reqQ.minScore ≤ 0 then 1/2 else reqQ.minScore) [qm1, qm2]).length } ∧
    ∀ r ∈ specKeptResults (if reqQ.minScore ≤ 0 then 1/2 else reqQ.minScore) [qm1, qm2],
      (if reqQ.minScore ≤ 0 then 1/2 else reqQ.minScore) ≤ r.score :=
  query_memory_exact envQ reqQ [1] [qm1, qm2] rfl rfl

/-- C9: a Query fails exactly when embedding generation fails or the
vector-store query fails; a successful store response whose matches are
all absent or below the threshold is not an error and yields the empty
successful response with total 0. -/
theorem query_memory_error_iff (env : Env) (req : QueryMemoryRequest) :
    (∀ e, env.embed req.query = .error e →
      serviceQueryMemory env req =
        .error (.wrap "failed to generate query embedding" e)) ∧
    (∀ qv e, env.embed req.query = .ok qv →
      env.query (builtQueryReq req.userID qv req.limit) = .error e →
      serviceQueryMemory env req =
        .error (.wrap "failed to query memories" (.wrap "failed to query memories" e))) ∧
    (∀ qv ms, env.embed req.query = .ok qv →
      env.query (builtQueryReq req.userID qv req.limit) = .ok ms →
      isErr (serviceQueryMemory env req) = false ∧
      ((∀ m ∈ ms, m.score < (if req.minScore ≤ 0 then 1/2 else req.minScore)) →
        serviceQueryMemory env req = .ok { results := [], total := 0 })) := by
  refine ⟨?_, ?_, ?_⟩
  · intro e he
    simp [serviceQueryMemory, he]
  · intro qv e he hq
    have hreq : builtQueryReq req.userID qv (if req.limit ≤ 0 then 10 else req.limit)
        = builtQueryReq req.userID qv req.limit := by
      unfold builtQueryReq
      by_cases h : req.limit ≤ 0 <;> simp [h]
    have hq2 := hq
    rw [← hreq] at hq2
    simp only [builtQueryReq] at hq2
    simp only [serviceQueryMemory, he, clientQueryMemories, hq2]
  · intro qv ms he hq
    have hok := serviceQueryMemory_ok_eq env req qv ms he hq
    constructor
    · rw [hok]
      rfl
    · intro hall
      rw [hok]
      have : specKeptResults (if req.minScore ≤ 0 then 1/2 else req.minScore) ms = [] := by
        unfold specKeptResults
        rw [List.filter_eq_nil_iff.mpr]
        · rfl
        · intro m hm
          simpa using not_le.mpr (hall m hm)
      rw [this]
      rfl

/-- Witness for C9: a failing embedding call aborts the Query; a
successful store response whose only match is below the threshold yields
the empty successful response. -/
theorem query_memory_error_iff_witness :
    serviceQueryMemory envEmbedFail reqQ =
      .error (.wrap "failed to generate query embedding" (.mk "embedding service down")) ∧
    serviceQueryMemory envQlow reqQ = .ok { results := [], total := 0 } :=
  ⟨(query_memory_error_iff envEmbedFail reqQ).1 (.mk "embedding service down") rfl,
   ((query_memory_error_iff envQlow reqQ).2.2 [1] [qm2] rfl rfl).2
     (by intro m hm
         rw [List.mem_singleton] at hm
         subst hm
         norm_num [qm2, reqQ])⟩

theorem serviceSaveMemory_vector (env : Env) (w : World)
    (req : SaveMemoryRequest) (now : Int) (mid : String) (emb : List Rat)
    (h1 : env.saveSessionFail = false) (hemb : env.embed req.content = .ok emb)
    (hup : env.upsertFail = false) :
    (serviceSaveMemory env w req now mid).2.1.vector
      = vupsert w.vector
          { id := mid, vec := emb,
            metadata := upsertMetadata
              { id := mid, userID := req.userID, content := req.content,
                embedding := emb,
                metadata := [("session_id", .s req.sessionID), ("role", .s req.role)],
                timestamp := now, ttl := 30 * 24 * 60 * 60 } } := by
  simp [serviceSaveMemory, saveSessionR, h1, hemb, upsertMemoryC, hup]

/-- C3: a successful Save persists a vector-store entry carrying the
same id as the appended Message, the generated embedding, metadata with
the originating session id, role, user id, content and timestamp, and
the fixed 30-day ttl (2592000 seconds); and the session record is
persisted with its retention window reset to 24 hours (86400 seconds). -/
theorem save_memory_success_shape (env : Env) (w : World)
    (req : SaveMemoryRequest) (now : Int) (mid : String)
    (hwf : ∀ s ttl, alookup w.redis ("session:" ++ req.sessionID) = some (s, ttl) →
      s.sessionID = req.sessionID)
    (hok : isErr (serviceSaveMemory env w req now mid).1 = false) :
    ∃ emb, env.embed req.content = .ok emb ∧
      (∃ sv, svFind (serviceSaveMemory env w req now mid).2.1.vector mid = some sv ∧
        sv.vec = emb ∧
        metaStr sv.metadata "session_id" = some req.sessionID ∧
        metaStr sv.metadata "role" = some req.role ∧
        metaStr sv.metadata "user_id" = some req.userID ∧
        metaStr sv.metadata "content" = some req.content ∧
        metaInt sv.metadata "timestamp" = some now ∧
        metaInt sv.metadata "ttl" = some 2592000) ∧
      (∃ s, alookup (serviceSaveMemory env w req now mid).2.1.redis
          ("session:" ++ req.sessionID) = some (s, 86400) ∧
        s.messages.getLast? = some
          { id := mid, role := req.role, content := req.content, timestamp := now }) := by
  by_cases h1 : env.saveSessionFail
  · simp [serviceSaveMemory, saveSessionR, h1, isErr] at hok
  · have h1f : env.saveSessionFail = false := by simpa using h1
    cases hemb : env.embed req.content with
    | error e =>
        have herr := serviceSaveMemory_err_late env w req now mid h1f
          (Or.inl (by rw [hemb]; rfl))
        rw [herr] at hok
        simp at hok
    | ok emb =>
        by_cases hup : env.upsertFail
        · exfalso
          have := serviceSaveMemory_err_late env w req now mid h1f
            (Or.inr (by simpa using hup))
          rw [this] at hok
          simp at hok
        · have hupf : env.upsertFail = false := by simpa using hup
          refine ⟨emb, rfl, ?_, savedSession env w req now mid, ?_,
            savedSession_getLast env w req now mid⟩
          · rw [serviceSaveMemory_vector env w req now mid emb h1f hemb hupf]
            refine ⟨_, svFind_vupsert_self w.vector _, rfl, ?_⟩
            simp [upsertMetadata, metaStr, metaInt, aset, alookup]
          · rw [serviceSaveMemory_redis env w req now mid h1f,
                savedSession_sessionID env w req now mid hwf]
            exact alookup_aset_self _ _ _

/-- Witness for C3: a fully successful save over the empty world. -/
theorem save_memory_success_shape_witness :
    ∃ emb, envOK.embed req0.content = .ok emb ∧
      (∃ sv, svFind (serviceSaveMemory envOK w0 req0 5 "m1").2.1.vector "m1" = some sv ∧
        sv.vec = emb ∧
        metaStr sv.metadata "session_id" = some req0.sessionID ∧
        metaStr sv.metadata "role" = some req0.role ∧
        metaStr sv.metadata "user_id" = some req0.userID ∧
        metaStr sv.metadata "content" = some req0.content ∧
        metaInt sv.metadata "timestamp" = some 5 ∧
        metaInt sv.metadata "ttl" = some 2592000) ∧
      (∃ s, alookup (serviceSaveMemory envOK w0 req0 5 "m1").2.1.redis
          ("session:" ++ req0.sessionID) = some (s, 86400) ∧
        s.messages.getLast? = some
          { id := "m1", role := req0.role, content := req0.content, timestamp := 5 }) :=
  save_memory_success_shape envOK w0 req0 5 "m1"
    (fun s ttl h => by simp [w0, alookup] at h) rfl

/-- C4: when the session record exists and is readable, Save persists
exactly the prior message sequence with the one new message appended at
the end, all other record fields unchanged; when the record does not
exist, Save persists a fresh record containing exactly the one new
message. -/
theorem save_memory_append_only (env : Env) (w : World)
    (req : SaveMemoryRequest) (now : Int) (mid : String)
    (hsave : env.saveSessionFail = false) (hget : env.getSessionFail = false) :
    (∀ s ttl, alookup w.redis ("session:" ++ req.sessionID) = some (s, ttl) →
      s.sessionID = req.sessionID →
      ∃ s1, alookup (serviceSaveMemory env w req now mid).2.1.redis
          ("session:" ++ req.sessionID) = some (s1, 86400) ∧
        s1.messages = s.messages ++
          [{ id := mid, role := req.role, content := req.content, timestamp := now }] ∧
        s1.userID = s.userID ∧ s1.sessionID = s.sessionID ∧
        s1.context = s.context ∧ s1.createdAt = s.createdAt) ∧
    (alookup w.redis ("session:" ++ req.sessionID) = none →
      ∃ s1, alookup (serviceSaveMemory env w req now mid).2.1.redis
          ("session:" ++ req.sessionID) = some (s1, 86400) ∧
        s1.messages =
          [{ id := mid, role := req.role, content := req.content, timestamp := now }] ∧
        s1.userID = req.userID ∧ s1.sessionID = req.sessionID) := by
  constructor
  · intro s ttl hsome hsid
    have hgs : getSessionR env w req.sessionID = .ok s := by
      simp [getSessionR, hget, hsome]
    have hsv : savedSession env w req now mid =
        { s with
          messages := s.messages ++
            [{ id := mid, role := req.role, content := req.content, timestamp := now }]
          lastActivity := now } := by
      simp [savedSession, hgs]
    refine ⟨savedSession env w req now mid, ?_, by simp [hsv], by simp [hsv],
      by simp [hsv], by simp [hsv], by simp [hsv]⟩
    rw [serviceSaveMemory_redis env w req now mid hsave,
        show (savedSession env w req now mid).sessionID = req.sessionID by
          rw [hsv]; exact hsid]
    exact alookup_aset_self _ _ _
  · intro hnone
    have hgs : getSessionR env w req.sessionID = .error (.mk "session not found") := by
      simp [getSessionR, hget, hnone]
    have hsv : savedSession env w req now mid =
        { userID := req.userID, sessionID := req.sessionID,
          messages :=
            [{ id := mid, role := req.role, content := req.content, timestamp := now }],
          context := [], lastActivity := now, createdAt := now } := by
      simp [savedSession, hgs]
    refine ⟨savedSession env w req now mid, ?_, by simp [hsv], by simp [hsv],
      by simp [hsv]⟩
    rw [serviceSaveMemory_redis env w req now mid hsave,
        show (savedSession env w req now mid).sessionID = req.sessionID by
          rw [hsv]]
    exact alookup_aset_self _ _ _

/-- Witness for C4: an existing one-session world and the empty world. -/
theorem save_memory_append_only_witness :
    (∃ s1, alookup (serviceSaveMemory envOK w1 req0 5 "m1").2.1.redis
        ("session:" ++ req0.sessionID) = some (s1, 86400) ∧
      s1.messages = sess0.messages ++
        [{ id := "m1", role := req0.role, content := req0.content, timestamp := 5 }] ∧
      s1.userID = sess0.userID ∧ s1.sessionID = sess0.sessionID ∧
      s1.context = sess0.context ∧ s1.createdAt = sess0.createdAt) ∧
    (∃ s1, alookup (serviceSaveMemory envOK w0 req0 5 "m1").2.1.redis
        ("session:" ++ req0.sessionID) = some (s1, 86400) ∧
      s1.messages =
        [{ id := "m1", role := req0.role, content := req0.content, timestamp := 5 }] ∧
      s1.userID = req0.userID ∧ s1.sessionID = req0.sessionID) :=
  ⟨(save_memory_append_only envOK w1 req0 5 "m1" rfl rfl).1 sess0 86400 rfl rfl,
   (save_memory_append_only envOK w0 req0 5 "m1" rfl rfl).2 rfl⟩

/-- C5: processing the expire-all cleanup task queries the whole vector
store bounded by the large page size 10000 and, for a store whose
entries carry their numeric timestamp/ttl metadata, deletes exactly the
entries whose timestamp + ttl < now and keeps every entry whose
timestamp + ttl ≥ now. -/
theorem cleanup_expired_exact (env : Env) (w : World) (now : Int)
    (hq : env.queryAllFail = false) (hd : env.vdeleteFail = false)
    (hlen : w.vector.length ≤ 10000)
    (hnodup : (w.vector.map StoredVec.id).Nodup) :
    (serviceCleanupExpiredMemories env w now).1 = .ok () ∧
    (serviceCleanupExpiredMemories env w now).2.vector
      = w.vector.filter (fun sv => !(expiredB now sv)) ∧
    ∀ sv ∈ w.vector, ∀ t l,
      metaInt sv.metadata "timestamp" = some t →
      metaInt sv.metadata "ttl" = some l →
      ((t + l < now → sv ∉ (serviceCleanupExpiredMemories env w now).2.vector) ∧
       (¬ t + l < now → sv ∈ (serviceCleanupExpiredMemories env w now).2.vector)) := by
  have hrun : serviceCleanupExpiredMemories env w now
      = (.ok (), sweepExpired env now (storeScan w 10000) w) := by
    simp [serviceCleanupExpiredMemories, clientDeleteExpiredMemories, hq]
  have hscan : storeScan w 10000
      = w.vector.map (fun sv =>
          ({ id := sv.id, score := 0, metadata := sv.metadata } : QueryMatch)) := by
    simp [storeScan, List.take_of_length_le hlen]
  have hvec : (serviceCleanupExpiredMemories env w now).2.vector
      = w.vector.filter (fun sv => !(expiredB now sv)) := by
    rw [hrun, hscan]
    simpa [expiredB] using
      sweepExpired_scan env hd now w.vector [] w (by simp) (by simp) hnodup
  refine ⟨by rw [hrun], hvec, ?_⟩
  intro sv hmem t l ht hl
  have hexp : expiredB now sv = decide (now > t + l) := by
    unfold expiredB
    exact expiredMeta_of_some now t l sv.metadata ht hl
  constructor
  · intro hlt hmem2
    rw [hvec] at hmem2
    have hkeep := (List.mem_filter.mp hmem2).2
    rw [hexp] at hkeep
    simp at hkeep
    omega
  · intro hge
    rw [hvec]
    refine List.mem_filter.mpr ⟨hmem, ?_⟩
    rw [hexp]
    simpa using hge

/-- Witness for C5: a two-entry store at time 50, one entry expired
(ttl 10) and one not (ttl 100). -/
theorem cleanup_expired_exact_witness :
    (serviceCleanupExpiredMemories envOK wv 50).1 = .ok () ∧
    (serviceCleanupExpiredMemories envOK wv 50).2.vector
      = wv.vector.filter (fun sv => !(expiredB 50 sv)) ∧
    ∀ sv ∈ wv.vector, ∀ t l,
      metaInt sv.metadata "timestamp" = some t →
      metaInt sv.metadata "ttl" = some l →
      ((t + l < 50 → sv ∉ (serviceCleanupExpiredMemories envOK wv 50).2.vector) ∧
       (¬ t + l < 50 → sv ∈ (serviceCleanupExpiredMemories envOK wv 50).2.vector)) :=
  cleanup_expired_exact envOK wv 50 rfl rfl (by simp [wv])
    (by simp [wv, sv1, sv2])

theorem vdelete_of_absent (vs : List StoredVec) (id : String)
    (h : svFind vs id = none) : vdelete vs id = vs := by
  rw [vdelete, List.filter_eq_self]
  intro sv hsv
  have := List.find?_eq_none.mp h sv hsv
  simpa using this

theorem vdelete_idem (vs : List StoredVec) (id : String) :
    vdelete (vdelete vs id) id = vdelete vs id := by
  simp only [vdelete, List.filter_filter, Bool.and_self]

/-- C6: memory deletion is idempotent at the store: deleting an id that
is not present succeeds and changes nothing, and deleting an id twice
behaves like deleting it once; the only failure the service-level delete
reports for an id its ownership query cannot see is exactly the
"already absent" not-found report, with both stores unchanged. -/
theorem delete_memory_idempotent (env : Env) (w : World) (id uid : String)
    (hd : env.vdeleteFail = false) :
    ((clientDeleteMemory env w id).1 = .ok () ∧
     (svFind w.vector id = none → (clientDeleteMemory env w id).2 = w) ∧
     clientDeleteMemory env (clientDeleteMemory env w id).2 id
        = clientDeleteMemory env w id) ∧
    (∀ qv ms, env.embed "verify memory ownership" = .ok qv →
      env.query (builtQueryReq uid qv 100) = .ok ms →
      (∀ m ∈ ms, m.id ≠ id) →
      serviceDeleteMemory env w id uid
        = (.error (.mk "memory not found or does not belong to the specified user"), w)) := by
  refine ⟨⟨?_, ?_, ?_⟩, ?_⟩
  · simp [clientDeleteMemory, hd]
  · intro habs
    simp [clientDeleteMemory, hd, vdelete_of_absent _ _ habs]
  · simp [clientDeleteMemory, hd, vdelete_idem]
  · intro qv ms he hq hno
    have hok := serviceQueryMemory_ok_eq env
      { userID := uid, query := "verify memory ownership", limit := 100, minScore := 0 }
      qv ms he hq
    have hfound : ((specKeptResults
        (if (0:Rat) ≤ 0 then 1/2 else (0:Rat)) ms).any fun r =>
          match metaStr r.metadata "id" with
          | some idv => idv == id
          | none => false) = false := by
      rw [List.any_eq_false]
      intro r hr
      simp only [specKeptResults, List.mem_map, List.mem_filter] at hr
      obtain ⟨m, ⟨hm, _⟩, rfl⟩ := hr
      rw [show metaStr (convMatch m).metadata "id" = some m.id from
            metaStr_aset_self _ _ _]
      simp [hno m hm]
    simp only [serviceDeleteMemory, hok, hfound]
    simp

/-- Witness for C6: deleting an absent id over the empty store, twice,
and a service-level delete whose ownership query returns one unrelated
memory. -/
theorem delete_memory_idempotent_witness :
    ((clientDeleteMemory envOK w0 "zzz").1 = .ok () ∧
     (clientDeleteMemory envOK w0 "zzz").2 = w0 ∧
     clientDeleteMemory envOK (clientDeleteMemory envOK w0 "zzz").2 "zzz"
        = clientDeleteMemory envOK w0 "zzz") ∧
    serviceDeleteMemory envQone w0 "zzz" "alice"
      = (.error (.mk "memory not found or does not belong to the specified user"), w0) :=
  ⟨⟨(delete_memory_idempotent envOK w0 "zzz" "alice" rfl).1.1,
    (delete_memory_idempotent envOK w0 "zzz" "alice" rfl).1.2.1 rfl,
    (delete_memory_idempotent envOK w0 "zzz" "alice" rfl).1.2.2⟩,
   (delete_memory_idempotent envQone w0 "zzz" "alice" rfl).2 [1] [qm1] rfl rfl
     (by intro m hm
         rw [List.mem_singleton] at hm
         subst hm
         simp [qm1])⟩

/-- C7: SetContext merges the supplied map into the existing context —
every supplied key takes the supplied value, every previously set key
not in the supplied map keeps its prior value — resets the retention
window to 86400 seconds, and a subsequent GetSession returns exactly the
merged record; SetContext fails when the underlying session does not
exist. -/
theorem set_context_roundtrip (env : Env) (w : World) (sid : String)
    (u : List (String × MetaVal)) (now now2 : Int)
    (hget : env.getSessionFail = false) (hsave : env.saveSessionFail = false)
    (hnodup : (u.map Prod.fst).Nodup) :
    (∀ s ttl, alookup w.redis ("session:" ++ sid) = some (s, ttl) →
      s.sessionID = sid →
      (serviceSetSessionContext env w sid u now).1 = .ok () ∧
      ∃ s1, alookup (serviceSetSessionContext env w sid u now).2.redis
            ("session:" ++ sid) = some (s1, 86400) ∧
        (serviceGetSession env (serviceSetSessionContext env w sid u now).2 sid now2).1
          = .ok s1 ∧
        (∀ k v, alookup u k = some v → alookup s1.context k = some v) ∧
        (∀ k, alookup u k = none → alookup s1.context k = alookup s.context k)) ∧
    (alookup w.redis ("session:" ++ sid) = none →
      isErr (serviceSetSessionContext env w sid u now).1 = true) := by
  constructor
  · intro s ttl hsome hsid
    have hgs : getSessionR env w sid = .ok s := by
      simp [getSessionR, hget, hsome]
    have hredis : (serviceSetSessionContext env w sid u now).2.redis
        = aset w.redis ("session:" ++ sid)
            ({ s with
               context := u.foldl (fun m kv => aset m kv.1 kv.2) s.context,
               lastActivity := now }, 86400) := by
      simp [serviceSetSessionContext, setSessionContextR, hgs, saveSessionR,
        hsave, hsid]
    refine ⟨?_, { s with
        context := u.foldl (fun m kv => aset m kv.1 kv.2) s.context,
        lastActivity := now }, ?_, ?_, ?_, ?_⟩
    · simp [serviceSetSessionContext, setSessionContextR, hgs, saveSessionR, hsave]
    · rw [hredis]
      exact alookup_aset_self _ _ _
    · have hgs2 : getSessionR env (serviceSetSessionContext env w sid u now).2 sid
          = .ok { s with
              context := u.foldl (fun m kv => aset m kv.1 kv.2) s.context,
              lastActivity := now } := by
        simp [getSessionR, hget, hredis, alookup_aset_self]
      cases hupd : updateSessionActivityR env
          (serviceSetSessionContext env w sid u now).2 sid now2 with
      | error e => simp [serviceGetSession, hgs2, hupd]
      | ok w3 => simp [serviceGetSession, hgs2, hupd]
    · intro k v hk
      exact alookup_foldl_aset_of_some u k v hnodup hk s.context
    · intro k hk
      exact alookup_foldl_aset_of_none u k hk s.context
  · intro hnone
    simp [serviceSetSessionContext, setSessionContextR, getSessionR, hget,
      hnone, isErr]

/-- Witness for C7: merging one key into an existing session with a
prior context, and a SetContext on an absent session. -/
theorem set_context_roundtrip_witness :
    ((serviceSetSessionContext envOK w1 "s1" u0 5).1 = .ok () ∧
     ∃ s1, alookup (serviceSetSessionContext envOK w1 "s1" u0 5).2.redis
          ("session:" ++ "s1") = some (s1, 86400) ∧
       (serviceGetSession envOK (serviceSetSessionContext envOK w1 "s1" u0 5).2 "s1" 6).1
         = .ok s1 ∧
       (∀ k v, alookup u0 k = some v → alookup s1.context k = some v) ∧
       (∀ k, alookup u0 k = none → alookup s1.context k = alookup sess0.context k)) ∧
    isErr (serviceSetSessionContext envOK w0 "s1" u0 5).1 = true :=
  ⟨(set_context_roundtrip envOK w1 "s1" u0 5 6 rfl rfl
      (by simp [u0])).1 sess0 86400 rfl rfl,
   (set_context_roundtrip envOK w0 "s1" u0 5 6 rfl rfl
      (by simp [u0])).2 rfl⟩

/-- C8: DeleteSession with the cascading-deletion flag set removes only
the SessionRecord from the session store; the vector store and the
user-session sets are untouched — the cascade is a no-op and memories
survive session deletion. -/
theorem delete_session_cascade_noop (env : Env) (w : World) (sid : String)
    (hget : env.getSessionFail = false) (hdel : env.delSessionFail = false)
    (hex : (alookup w.redis ("session:" ++ sid)).isSome = true) :
    (serviceDeleteSession env w sid true).1 = .ok () ∧
    (serviceDeleteSession env w sid true).2.vector = w.vector ∧
    (serviceDeleteSession env w sid true).2.userSessions = w.userSessions ∧
    (serviceDeleteSession env w sid true).2.redis
      = aerase w.redis ("session:" ++ sid) := by
  obtain ⟨p, hp⟩ := Option.isSome_iff_exists.mp hex
  obtain ⟨s, ttl⟩ := p
  have hgs : getSessionR env w sid = .ok s := by
    simp [getSessionR, hget, hp]
  refine ⟨?_, ?_, ?_, ?_⟩ <;>
    simp [serviceDeleteSession, hgs, deleteSessionR, hdel]

/-- Witness for C8: cascading delete of the one existing session. -/
theorem delete_session_cascade_noop_witness :
    (serviceDeleteSession envOK w1 "s1" true).1 = .ok () ∧
    (serviceDeleteSession envOK w1 "s1" true).2.vector = w1.vector ∧
    (serviceDeleteSession envOK w1 "s1" true).2.userSessions = w1.userSessions ∧
    (serviceDeleteSession envOK w1 "s1" true).2.redis
      = aerase w1.redis ("session:" ++ "s1") :=
  delete_session_cascade_noop envOK w1 "s1" rfl rfl rfl

/-- C10: deleting an absent session with the cascade flag set fails on
the session read before any delete is issued, leaving both stores
unchanged; without the flag the underlying key-value delete of the
missing key succeeds, so the operation succeeds and the world is
unchanged. -/
theorem delete_absent_session (env : Env) (w : World) (sid : String)
    (hget : env.getSessionFail = false) (hdel : env.delSessionFail = false)
    (habs : alookup w.redis ("session:" ++ sid) = none) :
    serviceDeleteSession env w sid true
      = (.error (.wrap "failed to get session" (.mk "session not found")), w) ∧
    serviceDeleteSession env w sid false = (.ok (), w) := by
  have hgs : getSessionR env w sid = .error (.mk "session not found") := by
    simp [getSessionR, hget, habs]
  constructor
  · simp [serviceDeleteSession, hgs]
  · simp [serviceDeleteSession, deleteSessionR, hdel, aerase_of_none _ _ habs]

/-- Witness for C10: both delete variants on the empty world. -/
theorem delete_absent_session_witness :
    serviceDeleteSession envOK w0 "s1" true
      = (.error (.wrap "failed to get session" (.mk "session not found")), w0) ∧
    serviceDeleteSession envOK w0 "s1" false = (.ok (), w0) :=
  delete_absent_session envOK w0 "s1" rfl rfl rfl
